import Mathlib

/-!
# Verification of `kornia.geometry.line`

A shallow embedding of `src/kornia/geometry/line.py`: the `ParametrizedLine`
entity (`point_at`, `projection`, `squared_distance`, `dim`, `through`) and the
`fit_line` routine (validation, scatter-matrix construction, selection of
`V[..., 0]` from the host SVD output).

Scalars are modelled as exact rationals (every machine float is a rational and
the claims speak about exact values up to floating tolerance); the `through`
constructor, whose normalization divides by a square root, is modelled over the
reals.  Batched tensors of statically known shape are total functions
`Fin B → Fin N → Fin D → ℚ`; the raw, shape-carrying view needed by the
validation layer is a pair of a shape and a flat data list.
-/

open Finset

namespace KorniaLine

/-! ## Vectors and the squared norm -/

/-- Dot product of two `D`-dimensional vectors, the model of `torch.inner` /
`@` on one-dimensional tensors (sum of elementwise products). -/
def dot {D : ℕ} {α : Type} [CommRing α] (x y : Fin D → α) : α :=
  ∑ i, x i * y i

/-- Modelled from the spec: `kornia.geometry.linalg.squared_norm` is not under
`src/`; the spec (§4.1, §9) uses the squared Euclidean norm
`‖·‖₂²` along the last axis, i.e. the sum of squared entries. -/
def squared_norm {D : ℕ} {α : Type} [CommRing α] (x : Fin D → α) : α :=
  ∑ i, x i * x i

/-! ## The `ParametrizedLine` entity

The Python class stores an `origin` and a `direction` tensor; the numeric
operations below are transcribed statement by statement from
`src/kornia/geometry/line.py`. -/

/-- A parametrized line: an origin point and a direction vector, as stored by
`ParametrizedLine.__init__` (the constructor does not normalize). -/
structure ParametrizedLine (α : Type) (D : ℕ) where
  origin : Fin D → α
  direction : Fin D → α

/-- `ParametrizedLine.point_at`: `origin + direction * t`. -/
def point_at {α : Type} [CommRing α] {D : ℕ} (l : ParametrizedLine α D)
    (t : α) : Fin D → α :=
  fun i => l.origin i + l.direction i * t

/-- `ParametrizedLine.projection`:
`origin + (direction @ (point - origin)) * direction`. -/
def projection {α : Type} [CommRing α] {D : ℕ} (l : ParametrizedLine α D)
    (point : Fin D → α) : Fin D → α :=
  fun i => l.origin i + dot l.direction (fun j => point j - l.origin j) * l.direction i

/-- `ParametrizedLine.squared_distance`:
`diff = point - origin; squared_norm(inner(diff - direction, diff) * direction)`
— transcribed with the parenthesization the source actually uses. -/
def squared_distance {α : Type} [CommRing α] {D : ℕ} (l : ParametrizedLine α D)
    (point : Fin D → α) : α :=
  squared_norm (fun i =>
    dot (fun j => (point j - l.origin j) - l.direction j)
        (fun j => point j - l.origin j) * l.direction i)

/-- `ParametrizedLine.distance`: `squared_distance(point).sqrt()`. -/
noncomputable def distance {D : ℕ} (l : ParametrizedLine ℝ D)
    (point : Fin D → ℝ) : ℝ :=
  Real.sqrt (squared_distance l point)

/-! ## `through` and L2 normalization

`ParametrizedLine.through` calls `normalize(p1 - p0, p=2, dim=-1)` imported
from `kornia.core`, whose body is not under `src/`. -/

/-- Division of each entry of a vector by its Euclidean norm, the value of the
L2 normalization on a vector whose norm is nonzero. -/
noncomputable def normalized {D : ℕ} (x : Fin D → ℝ) : Fin D → ℝ :=
  fun i => x i / Real.sqrt (squared_norm x)

/-- Modelled from the spec: `kornia.core.normalize` is not under `src/`.  The
spec (§4.1) defines it as normalization by the Euclidean (L2) norm along the
last axis, and states that a zero-length input has no finite normalization
(`through` "fails (or produces a degenerate non-finite direction)"): on a
vector of norm zero the division `0 / 0` yields no finite vector, modelled as
`none`. -/
noncomputable def normalize {D : ℕ} (x : Fin D → ℝ) : Option (Fin D → ℝ) :=
  if squared_norm x = 0 then none else some (normalized x)

/-- `ParametrizedLine.through`:
`ParametrizedLine(p0, normalize(p1 - p0, p=2, dim=-1))`. -/
noncomputable def through {D : ℕ} (p0 p1 : Fin D → ℝ) :
    Option (ParametrizedLine ℝ D) :=
  (normalize (fun i => p1 i - p0 i)).map fun d => ⟨p0, d⟩

/-! ## `fit_line`: scatter matrix and eigenvector selection

`fit_line` builds per batch element the matrix
`A = (points - points.mean(-2, True))`, forms
`A.transpose(-2,-1) @ torch.diag_embed(weights) @ A` (or `Aᵀ @ A` without
weights), hands it to `torch.linalg.svd` and returns `V[..., 0]` of the third
result.  The third result of `torch.linalg.svd` is `Vh`. -/

/-- Matrix product for one batch element, the model of `@` on matrices. -/
def bmm {m n p : ℕ} (X : Fin m → Fin n → ℚ) (Y : Fin n → Fin p → ℚ) :
    Fin m → Fin p → ℚ :=
  fun i k => ∑ j, X i j * Y j k

/-- `transpose(-2, -1)` for one batch element. -/
def mtranspose {m n : ℕ} (X : Fin m → Fin n → ℚ) : Fin n → Fin m → ℚ :=
  fun i j => X j i

/-- `torch.diag_embed`: the diagonal matrix of a vector, for one batch
element. -/
def diag_embed {n : ℕ} (w : Fin n → ℚ) : Fin n → Fin n → ℚ :=
  fun i j => if i = j then w i else 0

/-- The identity matrix, used to state orthogonality of the SVD factors. -/
def idMat (n : ℕ) : Fin n → Fin n → ℚ :=
  fun i j => if i = j then 1 else 0

/-- `points.mean(-2, True)`: the centroid of each batch's `N` points. -/
def points_mean {B N D : ℕ} (points : Fin B → Fin N → Fin D → ℚ) :
    Fin B → Fin D → ℚ :=
  fun b d => (∑ n, points b n d) / (N : ℚ)

/-- `A = points - points_mean`: the mean-centered points. -/
def centered {B N D : ℕ} (points : Fin B → Fin N → Fin D → ℚ) :
    Fin B → Fin N → Fin D → ℚ :=
  fun b n d => points b n d - points_mean points b d

/-- The matrix `fit_line` decomposes, per batch element:
`A.transpose(-2,-1) @ torch.diag_embed(weights) @ A` when weights are given,
else `A.transpose(-2,-1) @ A`. -/
def scatter {B N D : ℕ} (points : Fin B → Fin N → Fin D → ℚ)
    (weights : Option (Fin B → Fin N → ℚ)) : Fin B → Fin D → Fin D → ℚ :=
  fun b =>
    match weights with
    | some w => bmm (bmm (mtranspose (centered points b)) (diag_embed (w b)))
        (centered points b)
    | none => bmm (mtranspose (centered points b)) (centered points b)

/-- Modelled from the spec: `torch.linalg.svd` is a host-provided primitive
(§6: "a batched singular-value ... decomposition returning singular/eigen
vectors ordered by descending magnitude").  `IsSvdOf A U S Vh` states that
`(U, S, Vh)` is a valid host output on `A`: `A = U @ diag(S) @ Vh`, both `U`
and `Vh` orthogonal, and `S` non-negative in descending order. -/
def IsSvdOf {D : ℕ} (A U : Fin D → Fin D → ℚ) (S : Fin D → ℚ)
    (Vh : Fin D → Fin D → ℚ) : Prop :=
  A = bmm (bmm U (diag_embed S)) Vh ∧
    bmm (mtranspose U) U = idMat D ∧
    bmm U (mtranspose U) = idMat D ∧
    bmm (mtranspose Vh) Vh = idMat D ∧
    bmm Vh (mtranspose Vh) = idMat D ∧
    (∀ i j : Fin D, i ≤ j → S j ≤ S i) ∧
    (∀ i, 0 ≤ S i)

/-- The value `fit_line` returns, given the third component of the host SVD
output: `_, _, V = torch.linalg.svd(A); L = V[..., 0]` — index `0` on the
last axis of `Vh`, batched over `B`. -/
def fit_line_dir {B D : ℕ} [NeZero D] (Vh : Fin B → Fin D → Fin D → ℚ) :
    Fin B → Fin D → ℚ :=
  fun b i => Vh b i 0

/-! ### A concrete batch for evaluating the eigenvector selection -/

/-- A concrete batch (`B = 1`) of three 2-D points lying exactly on the line
through the origin with unit direction `(3/5, 4/5)`, at steps
`t = -5, 0, 5`. -/
def exPoints : Fin 1 → Fin 3 → Fin 2 → ℚ := ![![![-3, -4], ![0, 0], ![3, 4]]]

/-- The known line the points of `exPoints` are sampled from. -/
def exLine : ParametrizedLine ℚ 2 := ⟨![0, 0], ![3/5, 4/5]⟩

/-- The sampling steps of `exPoints` along `exLine`. -/
def exT : Fin 3 → ℚ := ![-5, 0, 5]

/-- The orthogonal left factor of a valid host SVD of the scatter matrix of
`exPoints`. -/
def exU : Fin 2 → Fin 2 → ℚ := ![![3/5, -4/5], ![4/5, 3/5]]

/-- The singular values of the scatter matrix of `exPoints`, in descending
order. -/
def exS : Fin 2 → ℚ := ![50, 0]

/-- The third factor (`Vh`) of a valid host SVD of the scatter matrix of
`exPoints`: its rows are the right singular vectors, the top one first. -/
def exVh : Fin 2 → Fin 2 → ℚ := ![![3/5, 4/5], ![-4/5, 3/5]]

/-- `exVh` as a batch of one. -/
def exVhB : Fin 1 → Fin 2 → Fin 2 → ℚ := fun _ => exVh

/-! ## The raw-tensor view: validation order and `dim`

The shape checks of `fit_line` and Python's `len` (used by
`ParametrizedLine.dim`) see a tensor as a shape together with flat data. -/

/-- A raw tensor: its shape and its flat data.  This is the view the shape
checks and `len` observe; the entries are never read by them. -/
structure Tensor where
  shape : List ℕ
  data : List ℚ

/-- Python `len` on a tensor returns the size of its first axis
(`shape[0]`) — a host-language primitive. -/
def tensor_len (t : Tensor) : ℕ := t.shape.headI

/-- `ParametrizedLine.dim`: `len(self.direction)`, on the raw view of the
stored direction tensor. -/
def dim (direction : Tensor) : ℕ := tensor_len direction

/-- The observable steps of `fit_line`, one per statement of the source, in
the order the claims speak about: validation checks, the mean, the centering,
the matrix products, the decomposition and the final selection. -/
inductive FitOp where
  | checkPointsIsTensor
  | checkPointsShape
  | meanStep
  | centerStep
  | checkWeightsIsTensor
  | checkWeightsShape
  | checkWeightsMatch
  | matmulStep
  | svdStep
  | selectStep
deriving DecidableEq

/-- The validation failures `fit_line` can raise; the source raises each with
a message naming the violated shape contract. -/
inductive FitError where
  | pointsShape
  | weightsShape
  | weightsMismatch
deriving DecidableEq

/-- Modelled from the spec: `KORNIA_CHECK_SHAPE` (from `kornia.testing`, not
under `src/`) matches a tensor against a named-letter shape spec such as
`["B", "N", "D"]`; with all entries letters it constrains exactly the rank
(§7: "wrong rank/shape ... validation errors").  `checkRank t r` is that
check for a spec of `r` letters. -/
def checkRank (t : Tensor) (r : ℕ) : Bool := t.shape.length == r

/-- The run of `fit_line` on raw tensors: the list of steps performed and
either a validation error or completion.  Transcribed in source statement
order: `KORNIA_CHECK_IS_TENSOR(points)` and `KORNIA_CHECK_SHAPE(points)`
first, then `points_mean` and the centering `A = points - points_mean`, then
— only when weights are given — `KORNIA_CHECK_IS_TENSOR(weights)`,
`KORNIA_CHECK_SHAPE(weights)` and the `KORNIA_CHECK` on
`points.shape[:2] == weights.shape[:2]`, then the matrix products, the SVD
and the selection `V[..., 0]`. -/
def fit_line_run (points : Tensor) (weights : Option Tensor) :
    List FitOp × Except FitError Unit :=
  let t0 := [FitOp.checkPointsIsTensor]
  if ¬ checkRank points 3 then
    (t0 ++ [FitOp.checkPointsShape], Except.error FitError.pointsShape)
  else
    let t1 := t0 ++ [FitOp.checkPointsShape, FitOp.meanStep, FitOp.centerStep]
    match weights with
    | some w =>
        let t2 := t1 ++ [FitOp.checkWeightsIsTensor]
        if ¬ checkRank w 2 then
          (t2 ++ [FitOp.checkWeightsShape], Except.error FitError.weightsShape)
        else if points.shape.take 2 ≠ w.shape.take 2 then
          (t2 ++ [FitOp.checkWeightsShape, FitOp.checkWeightsMatch],
            Except.error FitError.weightsMismatch)
        else
          (t2 ++ [FitOp.checkWeightsShape, FitOp.checkWeightsMatch,
              FitOp.matmulStep, FitOp.svdStep, FitOp.selectStep],
            Except.ok ())
    | none =>
        (t1 ++ [FitOp.matmulStep, FitOp.svdStep, FitOp.selectStep],
          Except.ok ())

end KorniaLine

open KorniaLine

/-! ## Helper lemmas on `dot` and `squared_norm` -/

/-- The squared norm is the dot product of a vector with itself. -/
theorem squared_norm_eq_dot {D : ℕ} {α : Type} [CommRing α] (x : Fin D → α) :
    squared_norm x = dot x x := rfl

/-- A sum of squares is non-negative. -/
theorem squared_norm_nonneg {D : ℕ} {α : Type} [LinearOrderedCommRing α]
    (x : Fin D → α) : 0 ≤ squared_norm x :=
  Finset.sum_nonneg fun i _ => mul_self_nonneg (x i)

/-- A sum of squares vanishes exactly on the zero vector. -/
theorem squared_norm_eq_zero_iff {D : ℕ} {α : Type} [LinearOrderedCommRing α]
    (x : Fin D → α) : squared_norm x = 0 ↔ x = 0 := by
  constructor
  · intro h
    funext i
    have hall := (Finset.sum_eq_zero_iff_of_nonneg
      (fun j _ => mul_self_nonneg (x j))).mp h i (Finset.mem_univ i)
    exact mul_self_eq_zero.mp hall
  · intro h
    subst h
    simp [squared_norm]

/-- Pulling a right scalar factor out of a dot product. -/
theorem dot_mul_const {D : ℕ} {α : Type} [CommRing α] (d x : Fin D → α) (c : α) :
    dot d (fun j => c * x j) = c * dot d x := by
  unfold dot
  rw [Finset.mul_sum]
  exact Finset.sum_congr rfl fun i _ => by ring

/-- Dot product with a scaled copy of the same vector. -/
theorem dot_self_scaled {D : ℕ} {α : Type} [CommRing α] (d : Fin D → α) (c : α) :
    dot d (fun j => c * d j) = c * squared_norm d := by
  rw [dot_mul_const, squared_norm_eq_dot]

/-- Any point of the form `origin + c * direction` is a fixed point of
`projection` when the direction is unit-norm. -/
theorem projection_fixes_affine {D : ℕ} (l : ParametrizedLine ℚ D)
    (hd : squared_norm l.direction = 1) (c : ℚ) :
    projection l (fun j => l.origin j + c * l.direction j)
      = fun j => l.origin j + c * l.direction j := by
  funext i
  show l.origin i
      + dot l.direction (fun j => (l.origin j + c * l.direction j) - l.origin j)
        * l.direction i
    = l.origin i + c * l.direction i
  have he : (fun j => (l.origin j + c * l.direction j) - l.origin j)
      = fun j => c * l.direction j := by
    funext j
    ring
  rw [he, dot_self_scaled, hd, mul_one]

/-- C6: for every line with unit-norm direction, projection fixes every point
on the line and is idempotent: `projection (point_at t) = point_at t` for all
`t`, and `projection (projection p) = projection p` for all points `p`
(exactly, in the rational model). -/
theorem projection_idempotent {D : ℕ} (l : ParametrizedLine ℚ D)
    (hd : squared_norm l.direction = 1) :
    (∀ t : ℚ, projection l (point_at l t) = point_at l t) ∧
      (∀ p : Fin D → ℚ, projection l (projection l p) = projection l p) := by
  constructor
  · intro t
    have he : point_at l t = fun j => l.origin j + t * l.direction j := by
      funext j
      show l.origin j + l.direction j * t = l.origin j + t * l.direction j
      ring
    rw [he]
    exact projection_fixes_affine l hd t
  · intro p
    have he : projection l p
        = fun j => l.origin j
            + dot l.direction (fun k => p k - l.origin k) * l.direction j := rfl
    rw [he]
    exact projection_fixes_affine l hd _

/-- Witness for C6 at the unit direction `(3/5, 4/5)` through the origin. -/
theorem projection_idempotent_witness :
    squared_norm (![(3 : ℚ)/5, 4/5]) = 1 ∧
      ((∀ t : ℚ, projection ⟨![0, 0], ![(3 : ℚ)/5, 4/5]⟩
          (point_at ⟨![0, 0], ![(3 : ℚ)/5, 4/5]⟩ t)
            = point_at ⟨![0, 0], ![(3 : ℚ)/5, 4/5]⟩ t) ∧
        (∀ p : Fin 2 → ℚ, projection ⟨![0, 0], ![(3 : ℚ)/5, 4/5]⟩
            (projection ⟨![0, 0], ![(3 : ℚ)/5, 4/5]⟩ p)
              = projection ⟨![0, 0], ![(3 : ℚ)/5, 4/5]⟩ p)) :=
  ⟨by norm_num [squared_norm, Fin.sum_univ_two],
    projection_idempotent ⟨![0, 0], ![(3 : ℚ)/5, 4/5]⟩
      (by norm_num [squared_norm, Fin.sum_univ_two])⟩

/-- C4: `through(p0, p1)` with `p0 = p1` does not return a finite direction:
the zero-length difference has no finite L2 normalization, so the construction
fails. -/
theorem through_same_point_fails {D : ℕ} (p : Fin D → ℝ) :
    through p p = none := by
  unfold through KorniaLine.normalize
  have h : squared_norm (fun i : Fin D => p i - p i) = 0 := by
    simp [squared_norm]
  rw [if_pos h]
  rfl

/-- C7: for `p0 ≠ p1`, `through` returns a line whose origin is exactly `p0`
and whose direction is the L2 normalization of `p1 - p0`, a vector of
(squared) Euclidean norm `1`. -/
theorem through_origin_direction {D : ℕ} (p0 p1 : Fin D → ℝ) (h : p0 ≠ p1) :
    through p0 p1 = some ⟨p0, normalized (fun i => p1 i - p0 i)⟩ ∧
      squared_norm (normalized (fun i => p1 i - p0 i)) = 1 := by
  have hx : (fun i => p1 i - p0 i) ≠ (0 : Fin D → ℝ) := by
    intro hz
    apply h
    funext i
    have hi := congrFun hz i
    simp only [Pi.zero_apply] at hi
    linarith
  have hs : squared_norm (fun i => p1 i - p0 i) ≠ 0 :=
    fun hz => hx ((squared_norm_eq_zero_iff _).mp hz)
  constructor
  · unfold through KorniaLine.normalize
    rw [if_neg hs]
    rfl
  · have hss : Real.sqrt (squared_norm fun i => p1 i - p0 i)
        * Real.sqrt (squared_norm fun i => p1 i - p0 i)
        = squared_norm fun i => p1 i - p0 i :=
      Real.mul_self_sqrt (squared_norm_nonneg _)
    calc squared_norm (normalized fun i => p1 i - p0 i)
        = ∑ i, ((p1 i - p0 i)
              / Real.sqrt (squared_norm fun i => p1 i - p0 i))
            * ((p1 i - p0 i)
              / Real.sqrt (squared_norm fun i => p1 i - p0 i)) := rfl
      _ = (∑ i, (p1 i - p0 i) * (p1 i - p0 i))
            / (Real.sqrt (squared_norm fun i => p1 i - p0 i)
              * Real.sqrt (squared_norm fun i => p1 i - p0 i)) := by
          rw [Finset.sum_div]
          exact Finset.sum_congr rfl fun i _ => by ring
      _ = 1 := by
          rw [hss]
          exact div_self hs

/-- Witness for C7 at `p0 = (0)`, `p1 = (1)` in dimension one. -/
theorem through_origin_direction_witness :
    (![(0 : ℝ)] ≠ ![(1 : ℝ)]) ∧
      (through ![(0 : ℝ)] ![(1 : ℝ)]
          = some ⟨![(0 : ℝ)],
              normalized (fun i => ![(1 : ℝ)] i - ![(0 : ℝ)] i)⟩ ∧
        squared_norm (normalized (fun i => ![(1 : ℝ)] i - ![(0 : ℝ)] i)) = 1) := by
  have hne : (![(0 : ℝ)]) ≠ (![(1 : ℝ)]) := by
    intro h
    have h0 := congrFun h 0
    simp at h0
  exact ⟨hne, through_origin_direction _ _ hne⟩

/-- C8: `squared_distance` is non-negative for every line (no constraint on the
direction norm) and every query point: the source expression is a sum of
squares. -/
theorem squared_distance_nonneg {D : ℕ} (l : ParametrizedLine ℚ D)
    (p : Fin D → ℚ) : 0 ≤ squared_distance l p :=
  squared_norm_nonneg _

/-- C2: evaluation of the code at a failing input.  For the line through the
origin `(0,0)` with unit direction `(1,0)` and the on-line point
`point_at 2 = (2,0)` — whose orthogonal projection is itself, so the true
squared residual is `0` — the source formula of `squared_distance` returns
`4` (hence `distance` returns `2`), contradicting the claim and the method's
own docstring. -/
theorem squared_distance_on_line_ne_zero :
    squared_norm (![(1 : ℚ), 0]) = 1 ∧
      point_at (⟨![0, 0], ![(1 : ℚ), 0]⟩ : ParametrizedLine ℚ 2) 2 = ![2, 0] ∧
      projection (⟨![0, 0], ![(1 : ℚ), 0]⟩ : ParametrizedLine ℚ 2) ![2, 0]
        = ![2, 0] ∧
      squared_distance (⟨![0, 0], ![(1 : ℚ), 0]⟩ : ParametrizedLine ℚ 2) ![2, 0]
        = 4 := by
  refine ⟨by norm_num [squared_norm, Fin.sum_univ_two], ?_, ?_,
    by norm_num [squared_distance, squared_norm, dot, Fin.sum_univ_two]⟩
  · funext i
    fin_cases i <;> norm_num [point_at]
  · funext i
    fin_cases i <;> norm_num [projection, dot, Fin.sum_univ_two]

/-- C5: for every batch of points (with or without weights) and every valid
host SVD output on the scatter matrices, `fit_line`'s result `V[..., 0]` is a
`(B, D)` family in which every row has squared Euclidean norm `1`: index `0`
on the last axis of an orthogonal `Vh` extracts a column of `Vh`, which is a
unit vector. -/
theorem fit_line_rows_unit_norm {B N D : ℕ} [NeZero D]
    (points : Fin B → Fin N → Fin D → ℚ)
    (weights : Option (Fin B → Fin N → ℚ))
    (U : Fin B → Fin D → Fin D → ℚ) (S : Fin B → Fin D → ℚ)
    (Vh : Fin B → Fin D → Fin D → ℚ)
    (hsvd : ∀ b, IsSvdOf (scatter points weights b) (U b) (S b) (Vh b)) :
    ∀ b, squared_norm (fit_line_dir Vh b) = 1 := by
  intro b
  have horth := (hsvd b).2.2.2.1
  have h00 := congrFun (congrFun horth 0) 0
  simpa [bmm, mtranspose, idMat, squared_norm, fit_line_dir] using h00

/-- Witness for C5: a single 1-dimensional point with no weights; its scatter
matrix is zero and `(1, 0, 1)` is a valid host SVD output for it. -/
theorem fit_line_rows_unit_norm_witness :
    (∀ b : Fin 1, IsSvdOf
        (scatter (fun _ _ _ => (5 : ℚ) : Fin 1 → Fin 1 → Fin 1 → ℚ) none b)
        (idMat 1) (fun _ => 0) (idMat 1)) ∧
      ∀ b : Fin 1, squared_norm
        (fit_line_dir (fun _ => idMat 1 : Fin 1 → Fin 1 → Fin 1 → ℚ) b) = 1 := by
  have hsvd : ∀ b : Fin 1, IsSvdOf
      (scatter (fun _ _ _ => (5 : ℚ) : Fin 1 → Fin 1 → Fin 1 → ℚ) none b)
      (idMat 1) (fun _ => 0) (idMat 1) := by
    intro b
    refine ⟨?_, ?_, ?_, ?_, ?_, ?_, ?_⟩
    · funext i j
      norm_num [scatter, bmm, mtranspose, centered, points_mean, diag_embed,
        idMat, Fin.sum_univ_one]
    · funext i j
      norm_num [bmm, mtranspose, idMat, Fin.sum_univ_one, Fin.eq_zero]
    · funext i j
      norm_num [bmm, mtranspose, idMat, Fin.sum_univ_one, Fin.eq_zero]
    · funext i j
      norm_num [bmm, mtranspose, idMat, Fin.sum_univ_one, Fin.eq_zero]
    · funext i j
      norm_num [bmm, mtranspose, idMat, Fin.sum_univ_one, Fin.eq_zero]
    · intro i j _
      exact le_refl 0
    · intro i
      exact le_refl 0
  exact ⟨hsvd, fit_line_rows_unit_norm _ none _ _ _ hsvd⟩

/-- C1: evaluation of the code at a failing input.  The three points of
`exPoints` lie exactly on `exLine` (unit direction `(3/5, 4/5)`), and
`(exU, exS, exVh)` is a valid host SVD output on their scatter matrix
`[[18, 24], [24, 32]]`.  `fit_line` returns `V[..., 0]`, the first column of
`Vh`, namely `(3/5, -4/5)`: its dot product with the true direction is
`-7/25`, not `±1`, and it is not collinear with the true direction — the top
eigenvector is the first **row** of `Vh`, which equals the true direction. -/
theorem fit_line_eval_not_top_eigenvector :
    squared_norm exLine.direction = 1 ∧
      (∀ n, exPoints 0 n = point_at exLine (exT n)) ∧
      scatter exPoints none 0 = ![![18, 24], ![24, 32]] ∧
      IsSvdOf (scatter exPoints none 0) exU exS exVh ∧
      fit_line_dir exVhB 0 = ![3/5, -4/5] ∧
      (fun j => exVh 0 j) = exLine.direction ∧
      dot (fit_line_dir exVhB 0) exLine.direction = -7/25 ∧
      (∀ c : ℚ, fit_line_dir exVhB 0 ≠ fun j => c * exLine.direction j) := by
  have hscatter : scatter exPoints none 0 = ![![18, 24], ![24, 32]] := by
    funext i j
    fin_cases i <;> fin_cases j <;>
      norm_num [scatter, bmm, mtranspose, centered, points_mean, exPoints,
        Fin.sum_univ_three, Fin.sum_univ_two]
  refine ⟨?_, ?_, hscatter, ⟨?_, ?_, ?_, ?_, ?_, ?_, ?_⟩, ?_, ?_, ?_, ?_⟩
  · norm_num [exLine, squared_norm, Fin.sum_univ_two]
  · intro n
    funext i
    fin_cases n <;> fin_cases i <;>
      norm_num [exPoints, exLine, exT, point_at]
  · rw [hscatter]
    funext i j
    fin_cases i <;> fin_cases j <;>
      norm_num [bmm, diag_embed, exU, exS, exVh, Fin.sum_univ_two]
  · funext i j
    fin_cases i <;> fin_cases j <;>
      norm_num [bmm, mtranspose, idMat, exU, Fin.sum_univ_two]
  · funext i j
    fin_cases i <;> fin_cases j <;>
      norm_num [bmm, mtranspose, idMat, exU, Fin.sum_univ_two]
  · funext i j
    fin_cases i <;> fin_cases j <;>
      norm_num [bmm, mtranspose, idMat, exVh, Fin.sum_univ_two]
  · funext i j
    fin_cases i <;> fin_cases j <;>
      norm_num [bmm, mtranspose, idMat, exVh, Fin.sum_univ_two]
  · intro i j hij
    fin_cases i <;> fin_cases j
    · norm_num [exS]
    · norm_num [exS]
    · exact absurd hij (by decide)
    · norm_num [exS]
  · intro i
    fin_cases i <;> norm_num [exS]
  · funext i
    fin_cases i <;> norm_num [fit_line_dir, exVhB, exVh]
  · funext j
    fin_cases j <;> norm_num [exVh, exLine]
  · norm_num [dot, Fin.sum_univ_two, fit_line_dir, exVhB, exVh, exLine]
  · intro c h
    have h0 := congrFun h 0
    have h1 := congrFun h 1
    norm_num [fit_line_dir, exVhB, exVh, exLine] at h0 h1
    linarith

/-- C3 counterexample: for points of shape `(1, 2, 2)` and weights of the
mismatched shape `(1, 3)`, `fit_line` does raise a validation error, but the
mean and the centering have already been computed when it is raised — the
weights checks sit after `points_mean` and `A = points - points_mean` in the
source. -/
theorem fit_line_mean_before_weights_check :
    (fit_line_run ⟨[1, 2, 2], [1, 0, 0, 1]⟩ (some ⟨[1, 3], [1, 1, 1]⟩)).2
        = Except.error FitError.weightsMismatch ∧
      FitOp.meanStep
          ∈ (fit_line_run ⟨[1, 2, 2], [1, 0, 0, 1]⟩ (some ⟨[1, 3], [1, 1, 1]⟩)).1 ∧
      FitOp.centerStep
          ∈ (fit_line_run ⟨[1, 2, 2], [1, 0, 0, 1]⟩ (some ⟨[1, 3], [1, 1, 1]⟩)).1 := by
  refine ⟨rfl, ?_, ?_⟩ <;> decide

/-- C3 amended: when weights are provided with wrong rank or with first two
axes not matching those of (rank-3) `points`, `fit_line` raises a validation
error and no matrix product, decomposition or selection is reached — but the
mean and the centering are computed before the failing check. -/
theorem fit_line_error_before_matmul (p w : Tensor)
    (hp : p.shape.length = 3)
    (hw : w.shape.length ≠ 2 ∨ p.shape.take 2 ≠ w.shape.take 2) :
    (∃ e, (fit_line_run p (some w)).2 = Except.error e) ∧
      FitOp.matmulStep ∉ (fit_line_run p (some w)).1 ∧
      FitOp.svdStep ∉ (fit_line_run p (some w)).1 ∧
      FitOp.selectStep ∉ (fit_line_run p (some w)).1 ∧
      FitOp.meanStep ∈ (fit_line_run p (some w)).1 ∧
      FitOp.centerStep ∈ (fit_line_run p (some w)).1 := by
  have hpr : ¬ ¬ checkRank p 3 = true := by
    simp [checkRank, hp]
  by_cases h2 : w.shape.length = 2
  · have hm : p.shape.take 2 ≠ w.shape.take 2 := by
      rcases hw with h | h
      · exact absurd h2 h
      · exact h
    have h2r : ¬ ¬ checkRank w 2 = true := by
      simp [checkRank, h2]
    simp only [fit_line_run, if_neg hpr, if_neg h2r, if_pos hm]
    refine ⟨⟨FitError.weightsMismatch, rfl⟩, ?_, ?_, ?_, ?_, ?_⟩ <;> decide
  · have h2r : ¬ checkRank w 2 = true := by
      simp [checkRank, h2]
    simp only [fit_line_run, if_neg hpr, if_pos h2r]
    refine ⟨⟨FitError.weightsShape, rfl⟩, ?_, ?_, ?_, ?_, ?_⟩ <;> decide

/-- Witness for C3 (amended) at points of shape `(1, 2, 2)` and weights of
shape `(1, 3)`. -/
theorem fit_line_error_before_matmul_witness :
    ((⟨[1, 2, 2], [1, 0, 0, 1]⟩ : Tensor).shape.length = 3 ∧
        ((⟨[1, 3], [1, 1, 1]⟩ : Tensor).shape.length ≠ 2 ∨
          (⟨[1, 2, 2], [1, 0, 0, 1]⟩ : Tensor).shape.take 2
            ≠ (⟨[1, 3], [1, 1, 1]⟩ : Tensor).shape.take 2)) ∧
      ((∃ e, (fit_line_run ⟨[1, 2, 2], [1, 0, 0, 1]⟩
            (some ⟨[1, 3], [1, 1, 1]⟩)).2 = Except.error e) ∧
        FitOp.matmulStep ∉ (fit_line_run ⟨[1, 2, 2], [1, 0, 0, 1]⟩
            (some ⟨[1, 3], [1, 1, 1]⟩)).1 ∧
        FitOp.svdStep ∉ (fit_line_run ⟨[1, 2, 2], [1, 0, 0, 1]⟩
            (some ⟨[1, 3], [1, 1, 1]⟩)).1 ∧
        FitOp.selectStep ∉ (fit_line_run ⟨[1, 2, 2], [1, 0, 0, 1]⟩
            (some ⟨[1, 3], [1, 1, 1]⟩)).1 ∧
        FitOp.meanStep ∈ (fit_line_run ⟨[1, 2, 2], [1, 0, 0, 1]⟩
            (some ⟨[1, 3], [1, 1, 1]⟩)).1 ∧
        FitOp.centerStep ∈ (fit_line_run ⟨[1, 2, 2], [1, 0, 0, 1]⟩
            (some ⟨[1, 3], [1, 1, 1]⟩)).1) := by
  have h : (⟨[1, 2, 2], [1, 0, 0, 1]⟩ : Tensor).shape.length = 3 ∧
      ((⟨[1, 3], [1, 1, 1]⟩ : Tensor).shape.length ≠ 2 ∨
        (⟨[1, 2, 2], [1, 0, 0, 1]⟩ : Tensor).shape.take 2
          ≠ (⟨[1, 3], [1, 1, 1]⟩ : Tensor).shape.take 2) := by
    exact ⟨by decide, Or.inr (by decide)⟩
  exact ⟨h, fit_line_error_before_matmul _ _ h.1 h.2⟩

/-- C10: the weight validation of `fit_line` reads only shapes, never values:
for any weights tensor whose shape passes the checks, the run completes
(no error) whatever the data entries are — in particular for negative
entries — and the whole run is unchanged when the data is replaced by any
other list. -/
theorem fit_line_ignores_weight_values (p w : Tensor)
    (hp : p.shape.length = 3) (hw : w.shape.length = 2)
    (hm : p.shape.take 2 = w.shape.take 2) :
    (fit_line_run p (some w)).2 = Except.ok () ∧
      ∀ d' : List ℚ, fit_line_run p (some ⟨w.shape, d'⟩)
        = fit_line_run p (some w) := by
  have hpr : ¬ ¬ checkRank p 3 = true := by
    simp [checkRank, hp]
  have h2r : ¬ ¬ checkRank w 2 = true := by
    simp [checkRank, hw]
  constructor
  · simp only [fit_line_run, if_neg hpr, if_neg h2r, if_neg (not_not_intro hm)]
  · intro d'
    rfl

/-- Witness for C10 at weights with negative entries. -/
theorem fit_line_ignores_weight_values_witness :
    ((⟨[1, 2, 2], [1, 2, 3, 4]⟩ : Tensor).shape.length = 3 ∧
        (⟨[1, 2], [-1, -5]⟩ : Tensor).shape.length = 2 ∧
        (⟨[1, 2, 2], [1, 2, 3, 4]⟩ : Tensor).shape.take 2
          = (⟨[1, 2], [-1, -5]⟩ : Tensor).shape.take 2) ∧
      ((fit_line_run ⟨[1, 2, 2], [1, 2, 3, 4]⟩ (some ⟨[1, 2], [-1, -5]⟩)).2
          = Except.ok () ∧
        ∀ d' : List ℚ, fit_line_run ⟨[1, 2, 2], [1, 2, 3, 4]⟩
            (some ⟨[1, 2], d'⟩)
          = fit_line_run ⟨[1, 2, 2], [1, 2, 3, 4]⟩ (some ⟨[1, 2], [-1, -5]⟩)) := by
  have h : (⟨[1, 2, 2], [1, 2, 3, 4]⟩ : Tensor).shape.length = 3 ∧
      (⟨[1, 2], [-1, -5]⟩ : Tensor).shape.length = 2 ∧
      (⟨[1, 2, 2], [1, 2, 3, 4]⟩ : Tensor).shape.take 2
        = (⟨[1, 2], [-1, -5]⟩ : Tensor).shape.take 2 :=
    ⟨by decide, by decide, by decide⟩
  exact ⟨h, fit_line_ignores_weight_values _ _ h.1 h.2.1 h.2.2⟩

/-- C9 counterexample: a line holding a batched direction tensor of shape
`(B, D) = (2, 3)`: `dim()` is `len(direction)`, which returns the first-axis
size `2` (the batch size), not the dimensionality `3`. -/
theorem dim_batched_counterexample :
    dim ⟨[2, 3], [1, 0, 0, 0, 1, 0]⟩ = 2 ∧ (2 : ℕ) ≠ 3 :=
  ⟨rfl, by decide⟩

/-- C9 amended: `dim()` returns the size of the first axis of the stored
direction tensor — the dimensionality `D` for an unbatched `D`-vector
direction of shape `(D,)`, but the batch size `B` for a batched direction of
shape `(B, D)`. -/
theorem dim_returns_first_axis (s : ℕ) (rest : List ℕ) (d : List ℚ) :
    dim ⟨s :: rest, d⟩ = s ∧ dim ⟨[s], d⟩ = s :=
  ⟨rfl, rfl⟩
